import Mathlib

/-!
Shallow embedding of the `nekkus-net` repository's verified surface:
the `sitecheck` package (outbound availability prober), the launch-mode
dispatch of `main.go`, and the Windows process hook
`internal/vpn/process_windows.go`.

The network is modelled explicitly: every fact the Go code observes about
one HTTP interaction (request-creation failure, transport failure, or a
response with a status code, a status line, a possible body-read failure
and the body's bytes) is a value of `FetchOutcome`, and theorems quantify
over all outcomes.  Bodies are modelled as rune (`Char`) sequences with
UTF-8 byte sizes; `io.LimitReader`'s byte cap is taken at rune granularity.
Go's `strings.ToLower` is modelled on the ASCII and Cyrillic ranges, which
cover every character the code compares.
-/

namespace NekkusNet

/-- `sitecheck.Site`: URL plus display name (src/unnamed/part_000). -/
structure Site where
  Name : String
  URL : String
deriving DecidableEq, Repr

/-- `sitecheck.Result`: outcome of checking one site (src/unnamed/part_000).
`LatencyMs` is 0 when the Go code leaves the field at its zero value. -/
structure Result where
  Name : String
  URL : String
  OK : Bool
  LatencyMs : Int
  Error : String
deriving DecidableEq, Repr

/-- `sitecheck.DefaultSites`: the fixed site list (src/unnamed/part_000). -/
def DefaultSites : List Site :=
  [ { Name := "ChatGPT", URL := "https://chat.openai.com" },
    { Name := "Gemini", URL := "https://gemini.google.com" },
    { Name := "Claude", URL := "https://claude.ai" },
    { Name := "Google", URL := "https://www.google.com" },
    { Name := "YouTube", URL := "https://www.youtube.com" },
    { Name := "Netflix", URL := "https://www.netflix.com" } ]

/-- `sitecheck.blockPhrases`: body phrases that mark a site as blocked
(src/unnamed/part_000). -/
def blockPhrases : List String :=
  [ "isn't available",
    "not available in your",
    "not available in this",
    "service is not available",
    "service isn't available",
    "unavailable in your",
    "unavailable in this",
    "access restricted",
    "доступ ограничен",
    "недоступен",
    "не доступен",
    "в вашем регионе",
    "в этой стране",
    "georestrict",
    "blocked in your",
    "blocked in this",
    "sorry, we're having trouble",
    "this service is not available",
    "not available in your country",
    "not available in your region",
    "content is not available",
    "video unavailable",
    "redirected you too many times",
    "connection refused",
    "check your connection",
    "something went wrong",
    "error code",
    "попробуйте позже",
    "временно недоступен" ]

/-- `sitecheck.maxBodyCheck`: only the first 128 KB of a body are read. -/
def maxBodyCheck : Nat := 128 * 1024

/-- `sitecheck.minBodySize`: a shorter response is treated as a block stub. -/
def minBodySize : Nat := 2000

/-- UTF-8 byte length of a rune sequence: Go's `len` on the body bytes. -/
def byteLen (cs : List Char) : Nat := (cs.map Char.utf8Size).sum

/-- Byte-capped prefix of a rune sequence: `io.LimitReader(body, n)` read to
the end, truncating at a rune boundary. -/
def takeBytes : Nat → List Char → List Char
  | _, [] => []
  | n, c :: cs => if c.utf8Size ≤ n then c :: takeBytes (n - c.utf8Size) cs else []

/-- Go's `unicode.ToLower` restricted to the ASCII letters and the Cyrillic
letters (А-Я and Ё), which cover every character the prober compares. -/
def goLowerChar (c : Char) : Char :=
  if 65 ≤ c.toNat ∧ c.toNat ≤ 90 then Char.ofNat (c.toNat + 32)
  else if 0x410 ≤ c.toNat ∧ c.toNat ≤ 0x42F then Char.ofNat (c.toNat + 32)
  else if c.toNat = 0x401 then Char.ofNat 0x451
  else c

/-- `strings.ToLower` on a rune sequence. -/
def goLowerList (cs : List Char) : List Char := cs.map goLowerChar

/-- `strings.ToLower` on a string. -/
def goToLower (s : String) : String := String.mk (goLowerList s.data)

/-- `strings.Contains` on rune sequences: some suffix starts with `pat`. -/
def containsSub : List Char → List Char → Bool
  | [], pat => pat.isEmpty
  | s@(_ :: rest), pat => pat.isPrefixOf s || containsSub rest pat

/-- The redirect behaviour of an `http.Client`: Go's default follows
redirects; a `CheckRedirect` returning `http.ErrUseLastResponse` hands each
redirect response back as-is. -/
inductive RedirectPolicy where
  | followDefault
  | useLastResponse
deriving DecidableEq, Repr

/-- The configuration of an `http.Client` that the `sitecheck` code sets:
the request timeout (nanoseconds, Go `time.Duration`) and redirect policy. -/
structure HttpClient where
  Timeout : Int
  CheckRedirect : RedirectPolicy
deriving DecidableEq, Repr

/-- The `if client == nil` block of `sitecheck.Check`: a nil client is
replaced by a default client with the given timeout and a `CheckRedirect`
that returns the last response instead of following redirects. -/
def resolveClient (client : Option HttpClient) (timeout : Int) : HttpClient :=
  match client with
  | none => { Timeout := timeout, CheckRedirect := RedirectPolicy.useLastResponse }
  | some c => c

/-- Everything `checkOne` observes of one HTTP interaction:
`reqError` — `http.NewRequestWithContext` failed (no latency measured);
`doError` — `client.Do` failed after `elapsedMs` milliseconds;
`response` — a response with its status code, status line, the outcome of
reading the body (`readErr`), and the body's rune stream. -/
inductive FetchOutcome where
  | reqError (msg : String)
  | doError (elapsedMs : Int) (msg : String)
  | response (elapsedMs : Int) (statusCode : Int) (status : String)
      (readErr : Option String) (body : List Char)
deriving DecidableEq, Repr

/-- The tail of `sitecheck.checkOne` after the status check passed: read the
capped body, apply the minimum-size heuristic, then the block-phrase
heuristic (src/unnamed/part_000). -/
def bodyVerdict (site : Site) (elapsedMs : Int) (readErr : Option String)
    (body : List Char) : Result :=
  match readErr with
  | some msg => ⟨site.Name, site.URL, false, elapsedMs, msg⟩
  | none =>
    let read := takeBytes maxBodyCheck body
    if byteLen read < minBodySize then
      ⟨site.Name, site.URL, false, elapsedMs,
        "недоступен (слишком короткий ответ, возможно заглушка)"⟩
    else if blockPhrases.any (fun p => containsSub (goLowerList read) p.data) then
      ⟨site.Name, site.URL, false, elapsedMs,
        "недоступен (блок по региону или заглушка)"⟩
    else
      ⟨site.Name, site.URL, true, elapsedMs, ""⟩

/-- `sitecheck.checkOne` (src/unnamed/part_000).  The context and timeout
shape the fetch outcome only, so the outcome stands for them; the client is
carried for the call shape. -/
def checkOne (client : HttpClient) (site : Site) (timeout : Int)
    (o : FetchOutcome) : Result :=
  match o with
  | FetchOutcome.reqError msg => ⟨site.Name, site.URL, false, 0, msg⟩
  | FetchOutcome.doError e msg => ⟨site.Name, site.URL, false, e, msg⟩
  | FetchOutcome.response e code status readErr body =>
    if code < 200 ∨ 400 ≤ code then
      ⟨site.Name, site.URL, false, e, "HTTP " ++ status⟩
    else
      bodyVerdict site e readErr body

/-- `sitecheck.CheckOne`: the exported single-site wrapper. -/
def CheckOne (client : HttpClient) (site : Site) (timeout : Int)
    (o : FetchOutcome) : Result :=
  checkOne client site timeout o

/-- The loop of `sitecheck.Check`: one `checkOne` call per site, in order;
`i` indexes the interactions the environment `env` supplies. -/
def checkList (c : HttpClient) (env : Nat → FetchOutcome) (timeout : Int) :
    Nat → List Site → List Result
  | _, [] => []
  | i, s :: rest => checkOne c s timeout (env i) :: checkList c env timeout (i + 1) rest

/-- `sitecheck.Check` (src/unnamed/part_000): resolve a possibly-nil client,
then check every site in order. -/
def Check (env : Nat → FetchOutcome) (client : Option HttpClient)
    (sites : List Site) (timeout : Int) : List Result :=
  checkList (resolveClient client timeout) env timeout 0 sites

/-- The Go loop of `SiteByName`/`SiteByURL`: first element satisfying `p`. -/
def findSite (p : Site → Bool) : List Site → Option Site
  | [] => none
  | s :: rest => if p s then some s else findSite p rest

/-- `sitecheck.SiteByURL` (src/unnamed/part_000): first `DefaultSites` entry
with exactly this URL, else none. -/
def SiteByURL (url : String) : Option Site :=
  findSite (fun s => s.URL == url) DefaultSites

/-- `sitecheck.SiteByName` (src/unnamed/part_000): first `DefaultSites`
entry whose lowercased name equals the lowercased argument, else none. -/
def SiteByName (name : String) : Option Site :=
  findSite (fun s => goToLower s.Name == goToLower name) DefaultSites

/-- `BackendOptions` as `main.go` fills it for `RunBackend`. -/
structure BackendOptions where
  Mode : String
  GRPCAddr : String
  HTTPAddr : String
  DataDir : String
  HubAddr : String
  ModuleID : String
  Version : String
  StartHTTP : Bool
deriving DecidableEq, Repr

/-- Modelled from the spec: `RunBackend` is declared and called in the
repository but its body is not among the given files.  The spec's process
boundary says "launch mode selects standalone vs module at startup via
configuration; module mode additionally requires a hub address and a module
identity/version pair", so starting the backend in hub (module) mode fails
unless the hub address, module id and version are all non-empty; only that
requirement is modelled, other runtime failures are out of scope. -/
def RunBackend (opts : BackendOptions) : Except String BackendOptions :=
  if opts.Mode = "hub" ∧ (opts.HubAddr = "" ∨ opts.ModuleID = "" ∨ opts.Version = "") then
    Except.error "hub mode requires a hub address and a module identity/version pair"
  else
    Except.ok opts

/-- The command-line flags `main.go` parses (defaults already applied:
`hubAddr`'s default is the `NEKKUS_HUB_ADDR` environment variable). -/
structure Flags where
  mode : String
  showUI : Bool
  listenAddr : String
  httpAddr : String
  dataDir : String
  hubAddr : String
  moduleID : String
  version : String
deriving DecidableEq, Repr

/-- `main.shouldShowUIFromEnv` (src/main.go): trim and lowercase the
`NEKKUS_SHOW_UI` value; empty means false, else compare with the
truthy words. -/
def shouldShowUIFromEnv (raw : String) : Bool :=
  let value := goToLower raw.trim
  if value == "" then false
  else value == "1" || value == "true" || value == "yes" || value == "on"

/-- The `BackendOptions` literal of the hub branch of `main` (src/main.go):
`Mode` is "hub" and `StartHTTP` equals the effective show-UI flag. -/
def hubOptions (f : Flags) (showUI : Bool) : BackendOptions :=
  { Mode := "hub", GRPCAddr := f.listenAddr, HTTPAddr := f.httpAddr,
    DataDir := f.dataDir, HubAddr := f.hubAddr, ModuleID := f.moduleID,
    Version := f.version, StartHTTP := showUI }

/-- The `BackendOptions` literal of the standalone branch of `main`
(src/main.go): `Mode` is "standalone" and `StartHTTP` is true. -/
def standaloneOptions (f : Flags) : BackendOptions :=
  { Mode := "standalone", GRPCAddr := f.listenAddr, HTTPAddr := f.httpAddr,
    DataDir := f.dataDir, HubAddr := f.hubAddr, ModuleID := f.moduleID,
    Version := f.version, StartHTTP := true }

/-- How a run of `main` ends, as far as the control flow of src/main.go
goes: `log.Fatal` on a backend error, a headless hub backend, a hub backend
with the Wails UI, or the standalone backend followed by the Wails UI. -/
inductive MainAction where
  | fatal (msg : String)
  | hubHeadless (opts : BackendOptions)
  | hubUI (opts : BackendOptions)
  | standaloneUI (opts : BackendOptions)
deriving DecidableEq, Repr

/-- `main.main` (src/main.go) after flag parsing: fold the environment's
show-UI value into the flag, branch on `--mode == "hub"`, start the backend
and report which continuation runs. -/
def mainRun (f : Flags) (envShowUI : String) : MainAction :=
  let showUI := f.showUI || shouldShowUIFromEnv envShowUI
  if f.mode = "hub" then
    match RunBackend (hubOptions f showUI) with
    | Except.error e => MainAction.fatal e
    | Except.ok _ =>
      if showUI then MainAction.hubUI (hubOptions f showUI)
      else MainAction.hubHeadless (hubOptions f showUI)
  else
    match RunBackend (standaloneOptions f) with
    | Except.error e => MainAction.fatal e
    | Except.ok _ => MainAction.standaloneUI (standaloneOptions f)

/-- `syscall.SysProcAttr` restricted to the fields the repository touches:
the Go literal `&syscall.SysProcAttr{HideWindow: true}` leaves every other
field (here `CreationFlags`) at its zero value. -/
structure SysProcAttr where
  HideWindow : Bool
  CreationFlags : Nat
deriving DecidableEq, Repr

/-- `exec.Cmd` restricted to the observable fields named by the spec (path,
arguments, environment, working directory, stdio) plus the process
attributes (`SysProcAttr`, nil when never set). -/
structure Cmd where
  Path : String
  Args : List String
  Env : List String
  Dir : String
  Stdin : Option String
  Stdout : Option String
  Stderr : Option String
  SysProcAttr : Option SysProcAttr
deriving DecidableEq, Repr

/-- `vpn.setProcessNoWindow` (src/internal/vpn/process_windows.go): on a
non-nil command, set `SysProcAttr` to a fresh attribute record with
`HideWindow` true; a nil command is left alone. -/
def setProcessNoWindow : Option Cmd → Option Cmd
  | none => none
  | some cmd => some { cmd with SysProcAttr := some { HideWindow := true, CreationFlags := 0 } }

/-! ### Helper lemmas -/

lemma bodyVerdict_Name (site : Site) (e : Int) (re : Option String) (body : List Char) :
    (bodyVerdict site e re body).Name = site.Name := by
  cases re with
  | some m => rfl
  | none =>
    simp only [bodyVerdict]
    split
    · rfl
    · split <;> rfl

lemma bodyVerdict_URL (site : Site) (e : Int) (re : Option String) (body : List Char) :
    (bodyVerdict site e re body).URL = site.URL := by
  cases re with
  | some m => rfl
  | none =>
    simp only [bodyVerdict]
    split
    · rfl
    · split <;> rfl

lemma checkOne_Name (c : HttpClient) (site : Site) (t : Int) (o : FetchOutcome) :
    (checkOne c site t o).Name = site.Name := by
  cases o with
  | reqError m => rfl
  | doError e m => rfl
  | response e code status re body =>
    simp only [checkOne]
    split
    · rfl
    · exact bodyVerdict_Name site e re body

lemma checkOne_URL (c : HttpClient) (site : Site) (t : Int) (o : FetchOutcome) :
    (checkOne c site t o).URL = site.URL := by
  cases o with
  | reqError m => rfl
  | doError e m => rfl
  | response e code status re body =>
    simp only [checkOne]
    split
    · rfl
    · exact bodyVerdict_URL site e re body

lemma checkList_length (c : HttpClient) (env : Nat → FetchOutcome) (t : Int)
    (i : Nat) (sites : List Site) :
    (checkList c env t i sites).length = sites.length := by
  induction sites generalizing i with
  | nil => rfl
  | cons s rest ih => simp [checkList, ih]

lemma checkList_getElem? (c : HttpClient) (env : Nat → FetchOutcome) (t : Int)
    (start i : Nat) (sites : List Site) :
    (checkList c env t start sites)[i]? =
      (sites[i]?).map (fun s => checkOne c s t (env (start + i))) := by
  induction sites generalizing start i with
  | nil => simp [checkList]
  | cons s rest ih =>
    cases i with
    | zero => simp [checkList]
    | succ n =>
      have harith : start + 1 + n = start + (n + 1) := by omega
      simp [checkList, ih (start + 1) n, harith]

lemma checkList_map_Name (c : HttpClient) (env : Nat → FetchOutcome) (t : Int)
    (i : Nat) (sites : List Site) :
    (checkList c env t i sites).map Result.Name = sites.map Site.Name := by
  induction sites generalizing i with
  | nil => rfl
  | cons s rest ih => simp [checkList, ih, checkOne_Name]

lemma checkList_map_URL (c : HttpClient) (env : Nat → FetchOutcome) (t : Int)
    (i : Nat) (sites : List Site) :
    (checkList c env t i sites).map Result.URL = sites.map Site.URL := by
  induction sites generalizing i with
  | nil => rfl
  | cons s rest ih => simp [checkList, ih, checkOne_URL]

lemma findSite_eq_none (p : Site → Bool) (l : List Site) :
    findSite p l = none ↔ ∀ s ∈ l, p s = false := by
  induction l with
  | nil => simp [findSite]
  | cons a rest ih =>
    simp only [findSite]
    cases hp : p a with
    | true => simp [List.forall_mem_cons, hp]
    | false => simp [List.forall_mem_cons, hp, ih]

lemma findSite_some (p : Site → Bool) (l : List Site) (s : Site)
    (h : findSite p l = some s) :
    ∃ i : Nat, l[i]? = some s ∧ p s = true ∧
      ∀ j : Nat, j < i → ∀ x, l[j]? = some x → p x = false := by
  induction l generalizing s with
  | nil => simp [findSite] at h
  | cons a rest ih =>
    simp only [findSite] at h
    cases hp : p a with
    | true =>
      rw [hp] at h
      simp only [if_pos] at h
      cases h
      refine ⟨0, by simp, hp, ?_⟩
      intro j hj
      exact absurd hj (Nat.not_lt_zero j)
    | false =>
      rw [hp] at h
      simp only [Bool.false_eq_true, if_false] at h
      obtain ⟨i, h1, h2, h3⟩ := ih s h
      refine ⟨i + 1, by simpa using h1, h2, ?_⟩
      intro j hj x hx
      cases j with
      | zero =>
        simp only [List.getElem?_cons_zero, Option.some.injEq] at hx
        subst hx
        exact hp
      | succ k =>
        simp only [List.getElem?_cons_succ] at hx
        exact h3 k (by omega) x hx

lemma http_status_ne_empty (t : String) : "" ≠ "HTTP " ++ t := by
  intro h
  obtain ⟨l⟩ := t
  have h1 : (("HTTP " : String) ++ String.mk l).data.head? = some 'H' := rfl
  rw [← h] at h1
  exact absurd h1 (by decide)

lemma http_status_ne_short (t : String) :
    "недоступен (слишком короткий ответ, возможно заглушка)" ≠ "HTTP " ++ t := by
  intro h
  obtain ⟨l⟩ := t
  have h1 : (("HTTP " : String) ++ String.mk l).data.head? = some 'H' := rfl
  rw [← h] at h1
  exact absurd h1 (by decide)

lemma http_status_ne_block (t : String) :
    "недоступен (блок по региону или заглушка)" ≠ "HTTP " ++ t := by
  intro h
  obtain ⟨l⟩ := t
  have h1 : (("HTTP " : String) ++ String.mk l).data.head? = some 'H' := rfl
  rw [← h] at h1
  exact absurd h1 (by decide)

lemma RunBackend_standalone (f : Flags) :
    RunBackend (standaloneOptions f) = Except.ok (standaloneOptions f) := by
  have hval : ¬((standaloneOptions f).Mode = "hub" ∧
      ((standaloneOptions f).HubAddr = "" ∨ (standaloneOptions f).ModuleID = "" ∨
        (standaloneOptions f).Version = "")) := by
    rintro ⟨h1, -⟩
    have h2 : ("standalone" : String) = "hub" := h1
    exact absurd h2 (by decide)
  unfold RunBackend
  rw [if_neg hval]

lemma mainRun_of_nonhub (f : Flags) (envShowUI : String) (h : f.mode ≠ "hub") :
    mainRun f envShowUI = MainAction.standaloneUI (standaloneOptions f) := by
  simp [mainRun, if_neg h, RunBackend_standalone]

/-! ### Claims -/

/-- C1: for every site and HTTP interaction, the `Result` of `checkOne` has
`OK = true` exactly when the request succeeded with a response, the status
code is at least 200 and strictly below 400, reading the body succeeded, the
body read (capped at the first 128*1024 bytes) is at least 2000 bytes long,
and the lowercased body contains none of the fixed block phrases; any
response flagged by the size or keyword heuristic yields `OK = false`. -/
theorem checkOne_ok_iff (client : HttpClient) (site : Site) (timeout : Int)
    (o : FetchOutcome) :
    (checkOne client site timeout o).OK = true ↔
      ∃ e code status body,
        o = FetchOutcome.response e code status none body ∧
        200 ≤ code ∧ code < 400 ∧
        minBodySize ≤ byteLen (takeBytes maxBodyCheck body) ∧
        ∀ p ∈ blockPhrases,
          containsSub (goLowerList (takeBytes maxBodyCheck body)) p.data = false := by
  cases o with
  | reqError msg => simp [checkOne]
  | doError e msg => simp [checkOne]
  | response e code status re body =>
    simp only [checkOne]
    by_cases hc : code < 200 ∨ 400 ≤ code
    · rw [if_pos hc]
      constructor
      · intro h
        simp at h
      · rintro ⟨e', code', status', body', heq, h1, h2, -, -⟩
        injection heq with he hcode hst hre hb
        subst hcode
        omega
    · rw [if_neg hc]
      push_neg at hc
      obtain ⟨h200, h400⟩ := hc
      cases re with
      | some m =>
        constructor
        · intro h
          simp [bodyVerdict] at h
        · rintro ⟨e', code', status', body', heq, -⟩
          injection heq with he hcode hst hre hb
          exact Option.noConfusion hre
      | none =>
        simp only [bodyVerdict]
        by_cases hb : byteLen (takeBytes maxBodyCheck body) < minBodySize
        · rw [if_pos hb]
          constructor
          · intro h
            simp at h
          · rintro ⟨e', code', status', body', heq, -, -, hlen, -⟩
            injection heq with he hcode hst hre hbody
            subst hbody
            omega
        · rw [if_neg hb]
          by_cases hph : blockPhrases.any
              (fun p => containsSub (goLowerList (takeBytes maxBodyCheck body)) p.data) = true
          · rw [if_pos hph]
            constructor
            · intro h
              simp at h
            · rintro ⟨e', code', status', body', heq, -, -, -, hnone⟩
              injection heq with he hcode hst hre hbody
              subst hbody
              obtain ⟨p, hp, hcp⟩ := List.any_eq_true.mp hph
              exact absurd (hnone p hp) (by simp [hcp])
          · rw [if_neg hph]
            constructor
            · intro _
              refine ⟨e, code, status, body, rfl, h200, h400, by omega, ?_⟩
              intro p hp
              by_contra hne
              exact hph (List.any_eq_true.mpr ⟨p, hp, by simpa using hne⟩)
            · intro _
              rfl

/-- C2 counterexample: a transport failure whose error text is the empty
string (as a Go `error` may report) yields a `Result` with `OK = false` and
an empty `Error`, so `Error = ""` does not imply `OK = true`. -/
theorem checkOne_silent_error_counterexample :
    (checkOne { Timeout := 5000000000, CheckRedirect := RedirectPolicy.useLastResponse }
        { Name := "Google", URL := "https://www.google.com" } 5000000000
        (FetchOutcome.doError 7 "")).OK = false ∧
    (checkOne { Timeout := 5000000000, CheckRedirect := RedirectPolicy.useLastResponse }
        { Name := "Google", URL := "https://www.google.com" } 5000000000
        (FetchOutcome.doError 7 "")).Error = "" :=
  ⟨rfl, rfl⟩

/-- Whether every error message the fetch outcome carries (request creation,
transport, body read) is a non-empty string. -/
def errMsgsNonempty : FetchOutcome → Bool
  | FetchOutcome.reqError m => !(m == "")
  | FetchOutcome.doError _ m => !(m == "")
  | FetchOutcome.response _ _ _ (some m) _ => !(m == "")
  | FetchOutcome.response _ _ _ none _ => true

/-- C2 (amended): whenever the underlying error messages are non-empty —
as every error the Go standard library produces here is — the `Result` of
`checkOne` has an empty `Error` exactly when `OK` is true: no failing check
is reported as success and no successful check carries an error. -/
theorem checkOne_error_iff_ok (client : HttpClient) (site : Site) (timeout : Int)
    (o : FetchOutcome) (h : errMsgsNonempty o = true) :
    (checkOne client site timeout o).Error = "" ↔
      (checkOne client site timeout o).OK = true := by
  cases o with
  | reqError m =>
    simp only [errMsgsNonempty, Bool.not_eq_true', beq_eq_false_iff_ne] at h
    simp [checkOne, h]
  | doError e m =>
    simp only [errMsgsNonempty, Bool.not_eq_true', beq_eq_false_iff_ne] at h
    simp [checkOne, h]
  | response e code status re body =>
    by_cases hc : code < 200 ∨ 400 ≤ code
    · simp only [checkOne, if_pos hc]
      have hne : "HTTP " ++ status ≠ "" := Ne.symm (http_status_ne_empty status)
      simp [hne]
    · simp only [checkOne, if_neg hc]
      cases re with
      | some m =>
        simp only [errMsgsNonempty, Bool.not_eq_true', beq_eq_false_iff_ne] at h
        simp [bodyVerdict, h]
      | none =>
        simp only [bodyVerdict]
        split
        · simp
        · split
          · simp
          · simp

/-- C2 witness: a concrete transport failure with a non-empty message. -/
theorem checkOne_error_iff_ok_witness :
    (checkOne { Timeout := 5000000000, CheckRedirect := RedirectPolicy.useLastResponse }
        { Name := "Google", URL := "https://www.google.com" } 5000000000
        (FetchOutcome.doError 7 "context deadline exceeded")).Error = "" ↔
      (checkOne { Timeout := 5000000000, CheckRedirect := RedirectPolicy.useLastResponse }
        { Name := "Google", URL := "https://www.google.com" } 5000000000
        (FetchOutcome.doError 7 "context deadline exceeded")).OK = true :=
  checkOne_error_iff_ok _ _ _ _ (by decide)

/-- C3: `Check` returns exactly one `Result` per input site, in input order,
and the `Name` and `URL` of the i-th result equal those of the i-th site. -/
theorem Check_results_aligned (env : Nat → FetchOutcome) (client : Option HttpClient)
    (sites : List Site) (timeout : Int) :
    (Check env client sites timeout).length = sites.length ∧
    ∀ i : Nat,
      (Check env client sites timeout)[i]?.map Result.Name = (sites[i]?).map Site.Name ∧
      (Check env client sites timeout)[i]?.map Result.URL = (sites[i]?).map Site.URL := by
  refine ⟨checkList_length _ _ _ _ _, ?_⟩
  intro i
  rw [Check, checkList_getElem?]
  cases sites[i]? with
  | none => simp
  | some s => simp [checkOne_Name, checkOne_URL]

/-- C5: with a nil client, `Check` builds the default client whose `Timeout`
is the timeout argument and whose redirect policy hands back each redirect
response instead of following it, and runs with exactly that client. -/
theorem Check_nil_client_default (env : Nat → FetchOutcome) (sites : List Site)
    (timeout : Int) :
    resolveClient none timeout =
      { Timeout := timeout, CheckRedirect := RedirectPolicy.useLastResponse } ∧
    (resolveClient none timeout).Timeout = timeout ∧
    (resolveClient none timeout).CheckRedirect = RedirectPolicy.useLastResponse ∧
    Check env none sites timeout =
      Check env (some { Timeout := timeout, CheckRedirect := RedirectPolicy.useLastResponse })
        sites timeout :=
  ⟨rfl, rfl, rfl, rfl⟩

/-- C7: `DefaultSites` is exactly the six-entry ordered list ChatGPT,
Gemini, Claude, Google, YouTube, Netflix with the stated URLs, and checking
the default list yields results for exactly those six sites in that order,
whatever the network does. -/
theorem DefaultSites_spec :
    DefaultSites =
      [ { Name := "ChatGPT", URL := "https://chat.openai.com" },
        { Name := "Gemini", URL := "https://gemini.google.com" },
        { Name := "Claude", URL := "https://claude.ai" },
        { Name := "Google", URL := "https://www.google.com" },
        { Name := "YouTube", URL := "https://www.youtube.com" },
        { Name := "Netflix", URL := "https://www.netflix.com" } ] ∧
    ∀ (env : Nat → FetchOutcome) (client : Option HttpClient) (timeout : Int),
      (Check env client DefaultSites timeout).map Result.Name =
        ["ChatGPT", "Gemini", "Claude", "Google", "YouTube", "Netflix"] ∧
      (Check env client DefaultSites timeout).map Result.URL =
        ["https://chat.openai.com", "https://gemini.google.com", "https://claude.ai",
         "https://www.google.com", "https://www.youtube.com", "https://www.netflix.com"] := by
  refine ⟨rfl, ?_⟩
  intro env client timeout
  constructor
  · rw [Check, checkList_map_Name]
    rfl
  · rw [Check, checkList_map_URL]
    rfl

/-- C8: `SiteByName` returns the first `DefaultSites` entry whose name
matches case-insensitively (`none` when no entry matches), and `SiteByURL`
returns the first entry whose URL matches exactly (`none` when none does). -/
theorem siteLookup_first_match (name url : String) :
    (SiteByName name = none ↔
      ∀ s ∈ DefaultSites, goToLower s.Name ≠ goToLower name) ∧
    (∀ s, SiteByName name = some s →
      ∃ i : Nat, DefaultSites[i]? = some s ∧ goToLower s.Name = goToLower name ∧
        ∀ j : Nat, j < i → ∀ x, DefaultSites[j]? = some x →
          goToLower x.Name ≠ goToLower name) ∧
    (SiteByURL url = none ↔ ∀ s ∈ DefaultSites, s.URL ≠ url) ∧
    (∀ s, SiteByURL url = some s →
      ∃ i : Nat, DefaultSites[i]? = some s ∧ s.URL = url ∧
        ∀ j : Nat, j < i → ∀ x, DefaultSites[j]? = some x → x.URL ≠ url) := by
  refine ⟨?_, ?_, ?_, ?_⟩
  · rw [SiteByName, findSite_eq_none]
    simp
  · intro s h
    obtain ⟨i, h1, h2, h3⟩ := findSite_some _ _ _ h
    refine ⟨i, h1, by simpa using h2, ?_⟩
    intro j hj x hx
    simpa using h3 j hj x hx
  · rw [SiteByURL, findSite_eq_none]
    simp
  · intro s h
    obtain ⟨i, h1, h2, h3⟩ := findSite_some _ _ _ h
    refine ⟨i, h1, by simpa using h2, ?_⟩
    intro j hj x hx
    simpa using h3 j hj x hx

/-- C9: any `--mode` value other than "hub" — not only "standalone" — takes
the standalone path: the backend starts with `Mode = "standalone"` and
`StartHTTP = true`, the Wails UI is launched, and the run is identical to an
explicit `--mode standalone` run; an unrecognized mode is never rejected. -/
theorem mainRun_nonhub_standalone (f : Flags) (envShowUI : String)
    (h : f.mode ≠ "hub") :
    mainRun f envShowUI = MainAction.standaloneUI (standaloneOptions f) ∧
    (standaloneOptions f).Mode = "standalone" ∧
    (standaloneOptions f).StartHTTP = true ∧
    mainRun f envShowUI = mainRun { f with mode := "standalone" } envShowUI := by
  refine ⟨mainRun_of_nonhub f envShowUI h, rfl, rfl, ?_⟩
  rw [mainRun_of_nonhub f envShowUI h,
    mainRun_of_nonhub { f with mode := "standalone" } envShowUI
      (by exact (by decide : ("standalone" : String) ≠ "hub"))]
  rfl

/-- Concrete flags with the unrecognised mode value "banana". -/
def demoFlags : Flags :=
  { mode := "banana", showUI := false, listenAddr := "127.0.0.1:50051",
    httpAddr := "127.0.0.1:8188", dataDir := "data", hubAddr := "",
    moduleID := "vpn", version := "0.1.0" }

/-- C9 witness: the unrecognized mode "banana" runs the standalone path. -/
theorem mainRun_nonhub_standalone_witness :
    mainRun demoFlags "" = MainAction.standaloneUI (standaloneOptions demoFlags) ∧
    (standaloneOptions demoFlags).Mode = "standalone" ∧
    (standaloneOptions demoFlags).StartHTTP = true ∧
    mainRun demoFlags "" = mainRun { demoFlags with mode := "standalone" } "" :=
  mainRun_nonhub_standalone demoFlags "" (by decide)

lemma mainRun_hub_bad (f : Flags) (envShowUI : String) (hm : f.mode = "hub")
    (hreq : f.hubAddr = "" ∨ f.moduleID = "" ∨ f.version = "") :
    mainRun f envShowUI =
      MainAction.fatal "hub mode requires a hub address and a module identity/version pair" := by
  have hrun : RunBackend (hubOptions f (f.showUI || shouldShowUIFromEnv envShowUI)) =
      Except.error "hub mode requires a hub address and a module identity/version pair" := by
    unfold RunBackend
    exact if_pos ⟨rfl, hreq⟩
  simp [mainRun, hm, hrun]

lemma mainRun_hub_ok (f : Flags) (envShowUI : String) (hm : f.mode = "hub")
    (ha : f.hubAddr ≠ "") (hmid : f.moduleID ≠ "") (hv : f.version ≠ "") :
    mainRun f envShowUI =
      (if (f.showUI || shouldShowUIFromEnv envShowUI) = true
        then MainAction.hubUI (hubOptions f (f.showUI || shouldShowUIFromEnv envShowUI))
        else MainAction.hubHeadless (hubOptions f (f.showUI || shouldShowUIFromEnv envShowUI))) := by
  have hrun : RunBackend (hubOptions f (f.showUI || shouldShowUIFromEnv envShowUI)) =
      Except.ok (hubOptions f (f.showUI || shouldShowUIFromEnv envShowUI)) := by
    unfold RunBackend
    apply if_neg
    rintro ⟨-, hbad⟩
    rcases hbad with hbad | hbad | hbad
    · exact ha hbad
    · exact hmid hbad
    · exact hv hbad
  simp [mainRun, hm, hrun]

/-- C4: launch mode is selected from the `--mode` flag; a hub-mode backend
only ever starts with a non-empty hub address, module id and version (a
violating configuration ends in `log.Fatal`), and a non-hub mode always
starts the standalone backend. -/
theorem hub_mode_requirements (f : Flags) (envShowUI : String)
    (opts : BackendOptions) :
    ((mainRun f envShowUI = MainAction.hubHeadless opts ∨
      mainRun f envShowUI = MainAction.hubUI opts) →
      opts.Mode = "hub" ∧ opts.HubAddr ≠ "" ∧ opts.ModuleID ≠ "" ∧ opts.Version ≠ "") ∧
    (f.mode = "hub" →
      (∃ msg, mainRun f envShowUI = MainAction.fatal msg) ∨
      (∃ o, mainRun f envShowUI = MainAction.hubHeadless o ∨
        mainRun f envShowUI = MainAction.hubUI o)) ∧
    (f.mode ≠ "hub" →
      mainRun f envShowUI = MainAction.standaloneUI (standaloneOptions f)) := by
  refine ⟨?_, ?_, mainRun_of_nonhub f envShowUI⟩
  · intro h
    by_cases hm : f.mode = "hub"
    · by_cases hreq : f.hubAddr = "" ∨ f.moduleID = "" ∨ f.version = ""
      · rw [mainRun_hub_bad f envShowUI hm hreq] at h
        rcases h with h | h <;> exact MainAction.noConfusion h
      · push_neg at hreq
        obtain ⟨ha, hmid, hv⟩ := hreq
        rw [mainRun_hub_ok f envShowUI hm ha hmid hv] at h
        rcases h with h | h
        · by_cases hui : (f.showUI || shouldShowUIFromEnv envShowUI) = true
          · rw [if_pos hui] at h
            exact MainAction.noConfusion h
          · rw [if_neg hui] at h
            injection h with hopts
            rw [← hopts]
            exact ⟨rfl, ha, hmid, hv⟩
        · by_cases hui : (f.showUI || shouldShowUIFromEnv envShowUI) = true
          · rw [if_pos hui] at h
            injection h with hopts
            rw [← hopts]
            exact ⟨rfl, ha, hmid, hv⟩
          · rw [if_neg hui] at h
            exact MainAction.noConfusion h
    · rw [mainRun_of_nonhub f envShowUI hm] at h
      rcases h with h | h <;> exact MainAction.noConfusion h
  · intro hm
    by_cases hreq : f.hubAddr = "" ∨ f.moduleID = "" ∨ f.version = ""
    · exact Or.inl ⟨_, mainRun_hub_bad f envShowUI hm hreq⟩
    · push_neg at hreq
      obtain ⟨ha, hmid, hv⟩ := hreq
      refine Or.inr ⟨hubOptions f (f.showUI || shouldShowUIFromEnv envShowUI), ?_⟩
      rw [mainRun_hub_ok f envShowUI hm ha hmid hv]
      by_cases hui : (f.showUI || shouldShowUIFromEnv envShowUI) = true
      · rw [if_pos hui]
        exact Or.inr rfl
      · rw [if_neg hui]
        exact Or.inl rfl

/-- C6: on a non-nil command, `setProcessNoWindow` only replaces the process
attributes with the hide-console-window record (every other attribute field
zero) and leaves path, arguments, environment, directory and stdio
unchanged; on a nil command it is a no-op. -/
theorem setProcessNoWindow_spec (cmd : Cmd) :
    setProcessNoWindow none = none ∧
    setProcessNoWindow (some cmd) =
      some { cmd with SysProcAttr := some { HideWindow := true, CreationFlags := 0 } } ∧
    ∀ c, setProcessNoWindow (some cmd) = some c →
      c.Path = cmd.Path ∧ c.Args = cmd.Args ∧ c.Env = cmd.Env ∧ c.Dir = cmd.Dir ∧
      c.Stdin = cmd.Stdin ∧ c.Stdout = cmd.Stdout ∧ c.Stderr = cmd.Stderr ∧
      c.SysProcAttr = some { HideWindow := true, CreationFlags := 0 } := by
  refine ⟨rfl, rfl, ?_⟩
  intro c hc
  cases Option.some.inj hc
  exact ⟨rfl, rfl, rfl, rfl, rfl, rfl, rfl, rfl⟩

/-- C10: `checkOne` answers "HTTP status" exactly for status codes below 200
or at least 400: such a response returns the `"HTTP " ++ status` error
without touching the body, a code in 200..399 (redirects included) passes
the status check and is judged purely by the body heuristics, and a passing
response never reports an `"HTTP " ++ status` error when the body read
succeeds. -/
theorem checkOne_http_status_iff (client : HttpClient) (site : Site) (timeout : Int)
    (e : Int) (code : Int) (status : String) (re : Option String) (body : List Char) :
    ((code < 200 ∨ 400 ≤ code) →
      checkOne client site timeout (FetchOutcome.response e code status re body) =
        ⟨site.Name, site.URL, false, e, "HTTP " ++ status⟩) ∧
    (200 ≤ code → code < 400 →
      checkOne client site timeout (FetchOutcome.response e code status re body) =
        bodyVerdict site e re body) ∧
    (200 ≤ code → code < 400 → re = none →
      (checkOne client site timeout (FetchOutcome.response e code status re body)).Error ≠
        "HTTP " ++ status) := by
  refine ⟨?_, ?_, ?_⟩
  · intro hc
    simp only [checkOne, if_pos hc]
  · intro h1 h2
    have hc : ¬(code < 200 ∨ 400 ≤ code) := by omega
    simp only [checkOne, if_neg hc]
  · intro h1 h2 hre
    subst hre
    have hc : ¬(code < 200 ∨ 400 ≤ code) := by omega
    simp only [checkOne, if_neg hc, bodyVerdict]
    split
    · exact http_status_ne_short status
    · split
      · exact http_status_ne_block status
      · exact http_status_ne_empty status

end NekkusNet
